import Mathlib

/-!
Verification of the rag-chatbot-backend core against its specification.

Strings of the JavaScript source are modelled as `List Char`; the length of a
JS string (`.length`) is the length of that list.  Fallible operations return
`Except`.  Remote services (embedding service, vector index, generation model,
Redis push outcomes) are modelled as explicit oracle parameters, so theorems
quantify over every possible behaviour of the collaborators.
-/

namespace RagBackend

/-! ## Chunker (`chunkText` in `src/index.js` and its sentence split) -/

/-- The character class of the JavaScript regex `\s` (used by both the
sentence-splitting regex and `String.prototype.trim`). -/
def jsWsChars : List Char :=
  [' ', '\t', '\n', '\r', '\x0b', '\x0c',
   '\u00A0', '\u1680',
   '\u2000', '\u2001', '\u2002', '\u2003', '\u2004', '\u2005',
   '\u2006', '\u2007', '\u2008', '\u2009', '\u200A',
   '\u2028', '\u2029', '\u202F', '\u205F', '\u3000', '\uFEFF']

def jsWs (c : Char) : Bool := jsWsChars.contains c

/-- The lookbehind class `[.?!]` of the sentence-splitting regex. -/
def isSentenceEnd (c : Char) : Bool := c = '.' || c = '?' || c = '!'

def headIsSentenceEnd : List Char → Bool
  | [] => false
  | c :: _ => isSentenceEnd c

/-- `text.split(/(?<=[.?!])\s+/)` from `chunkText`.  `acc` is the sentence
being built, in reverse; the `Bool` is true while consuming the whitespace
run of a match (the regex is greedy, so a maximal run is consumed).  The
lookbehind is checked against the previously consumed character, i.e. the
head of `acc`.  On empty input JS `split` yields one empty string. -/
def splitSentencesAux : List Char → List Char → Bool → List (List Char)
  | [], acc, _ => [acc.reverse]
  | c :: rest, acc, true =>
      if jsWs c then splitSentencesAux rest acc true
      else splitSentencesAux rest [c] false
  | c :: rest, acc, false =>
      if jsWs c && headIsSentenceEnd acc then
        acc.reverse :: splitSentencesAux rest [] true
      else splitSentencesAux rest (c :: acc) false

def splitSentences (text : List Char) : List (List Char) :=
  splitSentencesAux text [] false

/-- `String.prototype.trim`: drop leading and trailing whitespace. -/
def jsTrim (l : List Char) : List Char :=
  (((l.dropWhile jsWs).reverse.dropWhile jsWs)).reverse

/-- The sentence-accumulation loop of `chunkText`: the `for` loop over
`sentences` followed by the final flush.  `buf` is `currentChunk`.
A flush happens when `(currentChunk + sentence).length > chunkSize`
and pushes `currentChunk.trim()` when the buffer is nonempty (JS
truthiness of a string); afterwards the buffer restarts as
`sentence + " "`. -/
def chunkLoop (chunkSize : Nat) : List (List Char) → List Char → List (List Char)
  | [], buf => if buf = [] then [] else [jsTrim buf]
  | s :: rest, buf =>
      if chunkSize < (buf ++ s).length then
        (if buf = [] then [] else [jsTrim buf]) ++ chunkLoop chunkSize rest (s ++ [' '])
      else
        chunkLoop chunkSize rest (buf ++ s ++ [' '])

/-- `chunkText(text, chunkSize = 300)` from `src/index.js`. -/
def chunkText (text : List Char) (chunkSize : Nat := 300) : List (List Char) :=
  chunkLoop chunkSize (splitSentences text) []

/-- One chunk buffer as a function of the sentences it accumulated:
each sentence contributes `sentence + " "`. -/
def joinSp (g : List (List Char)) : List Char :=
  (g.map (fun s => s ++ [' '])).flatten

/-! ## Retry policy of `embedAndStore` (`src/index.js`)

The two retry loops (embedding batches and Qdrant upserts) share the shape
`attempt = 0; while (true) { try { ...; break } catch { attempt++;
if (attempt >= 3) throw; await sleep(500 * attempt) } }`.
`op n` is the outcome of the `n`-th (0-based) try.  The result records the
operation outcome, the list of backoff delays slept (in ms, in order), and
the 0-based indices of the attempts actually made. -/

def maxAttempts : Nat := 3

def backoffMs (attempt : Nat) : Nat := 500 * attempt

def retryLoop {E A : Type} (op : Nat → Except E A) (attempt : Nat) :
    Except E A × List Nat × List Nat :=
  match op attempt with
  | .ok a => (.ok a, [], [attempt])
  | .error e =>
      if _h : attempt + 1 ≥ maxAttempts then (.error e, [], [attempt])
      else
        let r := retryLoop op (attempt + 1)
        (r.1, backoffMs (attempt + 1) :: r.2.1, attempt :: r.2.2)
termination_by maxAttempts - attempt
decreasing_by simp [maxAttempts] at *; omega

/-! ## Embedding batching in `embedAndStore` (`src/index.js`)

The loop `for (let start = 0; start < chunks.length; start += batchSize)`
slices `chunks` into consecutive batches of `batchSize = 8`; each batch is
one network call `requestJinaEmbeddings(batch)`, whose parsed response body
carries an optional `data` array (`none` models a response without a `data`
field).  The loop then pushes every `item.embedding` of `resp.data` into
`allVectors`, without comparing the count against the batch size. -/

def batchSize : Nat := 8

/-- Consecutive slices of size `batchSize` (the last one possibly shorter):
`cur` is the batch under construction (reversed), `room` the remaining
capacity of `cur`. -/
def toBatchesAux {α : Type} : List α → List α → Nat → List (List α)
  | [], [], _ => []
  | [], c :: cs, _ => [(c :: cs).reverse]
  | x :: xs, cur, 0 => cur.reverse :: toBatchesAux xs [x] (batchSize - 1)
  | x :: xs, cur, r + 1 => toBatchesAux xs (x :: cur) r

def toBatches {α : Type} (l : List α) : List (List α) :=
  toBatchesAux l [] batchSize

/-- The per-batch part of the embedding loop: `svc b` is the `data` array of
the JSON response for the network call on batch `b` (`none` when the field
is absent, in which case `for (const item of resp.data)` raises).  Returns
the accumulated `allVectors` and the number of network calls made. -/
def embedBatchesGo {α V : Type} (svc : List α → Option (List V)) :
    List (List α) → Except String (List V × Nat)
  | [] => .ok ([], 0)
  | b :: bs =>
      match svc b with
      | none => .error "TypeError: resp.data is not iterable"
      | some items =>
          match embedBatchesGo svc bs with
          | .ok (vs, n) => .ok (items ++ vs, n + 1)
          | .error e => .error e

/-- The whole embedding loop of `embedAndStore` over one document's chunks,
on the path where every network call returns a parsed response (the retry
wrapper around each call is modelled separately by `retryLoop`). -/
def embedBatchesRun {α V : Type} (svc : List α → Option (List V)) (chunks : List α) :
    Except String (List V × Nat) :=
  embedBatchesGo svc (toBatches chunks)

/-! ## Response validation of `getJinaEmbeddings` (`src/index.js` query path)

`getJinaEmbeddings` resolves `dataArr[0].embedding` only when
`Array.isArray(dataArr) && dataArr.length > 0 &&
Array.isArray(dataArr[0]?.embedding)`; otherwise it rejects with
"Embeddings response missing data".  `dataArr = none` models a response
whose `data` field is absent or not an array; an item `none` models an item
without an array `embedding` field. -/
def getJinaEmbeddingsExtract {V : Type} (dataArr : Option (List (Option V))) :
    Except String V :=
  match dataArr with
  | some (some v :: _) => .ok v
  | _ => .error "Embeddings response missing data"

/-! ## The `POST /api/chat` handler (`src/index.js`)

`Store` models the Redis lists: a map from key to list of messages.
`ChatEnv` fixes one behaviour of every collaborator touched by one request:
the query embedding call, the Qdrant search (already projected to the
`payload.text` of each hit), the Gemini generation call, the outcomes of the
two `rPush` calls, and the uuid `v4()` that would be generated.  `calls`
records, in order, which network/store operations were started. -/

structure Message where
  sender : String
  text : String
deriving DecidableEq

inductive ChatResult where
  | ok (answer : String) (sessionId : String)
  | badRequest (error : String)
  | serverError (error : String)
deriving DecidableEq

structure ChatEnv where
  embed : String → Except String (List Int)
  search : List Int → Except String (List String)
  generate : String → Except String String
  pushUserResult : Except String Unit
  pushBotResult : Except String Unit
  freshId : String

structure ChatOut where
  result : ChatResult
  store : String → List Message
  calls : List String

/-- `Array.prototype.join(sep)`. -/
def joinSep (sep : String) : List String → String
  | [] => ""
  | [x] => x
  | x :: y :: xs => x ++ sep ++ joinSep sep (y :: xs)

def contextOf (texts : List String) : String :=
  joinSep "\n\n---\n\n" texts

/-- The Gemini prompt template of the handler. -/
def mkPrompt (context query : String) : String :=
  "You are helpful news assistant. Based on the following context, answer the user's question. Provide a concise answer and mention the source aritcle titles if possible.\n      Context:\n      "
    ++ context
    ++ "\n      Question:\n      " ++ query ++ "\n      \n      Answer:"

def historyKey (sessionId : String) : String := "chat_history:" ++ sessionId

/-- `redisClient.rPush(key, JSON.stringify(m))`: append at the tail of the
list stored under `key`. -/
def rPush (store : String → List Message) (key : String) (m : Message) :
    String → List Message :=
  fun k => if k = key then store k ++ [m] else store k

def genericError : String := "An error occurred while processing your request."

/-- `if (!sessionId) sessionId = v4()`: a missing or empty (falsy) session id
is replaced by a fresh uuid. -/
def resolveSessionId (env : ChatEnv) (sessionId : Option String) : String :=
  match sessionId with
  | none => env.freshId
  | some "" => env.freshId
  | some s => s

/-- The `POST /api/chat` handler.  `query = none` models a request body
without a `query` field; the JS guard `if (!query)` also fires on the empty
string.  Every failure inside the `try` block is caught by the single
`catch`, which answers with the generic 500 error. -/
def chatHandler (env : ChatEnv) (store : String → List Message)
    (query : Option String) (sessionId : Option String) : ChatOut :=
  match query with
  | none => ⟨.badRequest "Query is required", store, []⟩
  | some q =>
      if q = "" then ⟨.badRequest "Query is required", store, []⟩
      else
        let sid := resolveSessionId env sessionId
        let key := historyKey sid
        match env.embed q with
        | .error _ => ⟨.serverError genericError, store, ["embed"]⟩
        | .ok vec =>
            match env.search vec with
            | .error _ => ⟨.serverError genericError, store, ["embed", "search"]⟩
            | .ok texts =>
                match env.generate (mkPrompt (contextOf texts) q) with
                | .error _ =>
                    ⟨.serverError genericError, store, ["embed", "search", "generate"]⟩
                | .ok answer =>
                    match env.pushUserResult with
                    | .error _ =>
                        ⟨.serverError genericError, store,
                          ["embed", "search", "generate", "rpush"]⟩
                    | .ok _ =>
                        let store1 := rPush store key ⟨"user", q⟩
                        match env.pushBotResult with
                        | .error _ =>
                            ⟨.serverError genericError, store1,
                              ["embed", "search", "generate", "rpush", "rpush"]⟩
                        | .ok _ =>
                            ⟨.ok answer sid, rPush store1 key ⟨"bot", answer⟩,
                              ["embed", "search", "generate", "rpush", "rpush"]⟩

/-! ## Concrete collaborators used by the witnesses -/

def retryOpThirdTry : Nat → Except Nat Nat :=
  fun n => if n = 2 then .ok 42 else .error n

def retryOpAllFail : Nat → Except Nat Nat :=
  fun n => .error n

def demoEmbedSvc : List Nat → Option (List Nat) :=
  fun b => some (b.map (fun t => t * 10))

def shortEmbedSvc : List Nat → Option (List Nat) :=
  fun _ => some [99]

def demoEnv : ChatEnv where
  embed := fun _ => .ok [1, 2, 3]
  search := fun _ => .ok ["ctx one", "ctx two"]
  generate := fun _ => .ok "the answer"
  pushUserResult := .ok ()
  pushBotResult := .ok ()
  freshId := "session-1"

def demoEnvBotPushFails : ChatEnv where
  embed := fun _ => .ok [1, 2, 3]
  search := fun _ => .ok ["ctx one", "ctx two"]
  generate := fun _ => .ok "the answer"
  pushUserResult := .ok ()
  pushBotResult := .error "redis down"
  freshId := "session-1"

def emptyStore : String → List Message := fun _ => []

end RagBackend

namespace RagBackend

/-! ## Helper lemmas about trimming -/

theorem length_dropWhile_le (p : Char → Bool) :
    ∀ l : List Char, (l.dropWhile p).length ≤ l.length := by
  intro l
  induction l with
  | nil => simp [List.dropWhile]
  | cons x xs ih =>
      by_cases h : p x
      · simp [List.dropWhile, h]
        omega
      · simp [List.dropWhile, h]

theorem jsTrim_length_le (l : List Char) : (jsTrim l).length ≤ l.length := by
  unfold jsTrim
  have h1 := length_dropWhile_le jsWs l
  have h2 := length_dropWhile_le jsWs (l.dropWhile jsWs).reverse
  simp only [List.length_reverse] at *
  omega

theorem jsTrim_append_space (l : List Char) : jsTrim (l ++ [' ']) = jsTrim l := by
  unfold jsTrim
  rw [List.dropWhile_append]
  by_cases h : (l.dropWhile jsWs).isEmpty
  · rw [if_pos h]
    have h0 : l.dropWhile jsWs = [] := by
      cases hd : l.dropWhile jsWs with
      | nil => rfl
      | cons a t => rw [hd] at h; simp [List.isEmpty] at h
    rw [h0]
    simp [List.dropWhile, jsWs, jsWsChars]
  · rw [if_neg h]
    have : ((l.dropWhile jsWs) ++ [' ']).reverse = ' ' :: (l.dropWhile jsWs).reverse := by
      simp
    rw [this]
    have hsp : jsWs ' ' = true := by decide
    simp [List.dropWhile, hsp]

theorem chunkLoop_le (chunkSize : Nat) (Q : List Char → Prop) :
    ∀ ss : List (List Char), (∀ s ∈ ss, Q s) → ∀ buf : List Char,
      ((jsTrim buf).length ≤ chunkSize ∨ ∃ s, Q s ∧ jsTrim buf = jsTrim s) →
      ∀ c ∈ chunkLoop chunkSize ss buf,
        c.length ≤ chunkSize ∨ ∃ s, Q s ∧ c = jsTrim s := by
  intro ss
  induction ss with
  | nil =>
      intro _ buf hbuf c hc
      unfold chunkLoop at hc
      by_cases hb : buf = []
      · rw [if_pos hb] at hc
        simp at hc
      · rw [if_neg hb] at hc
        simp at hc
        subst hc
        exact hbuf
  | cons s rest ih =>
      intro hQ buf hbuf c hc
      have hQrest : ∀ t ∈ rest, Q t := fun t ht => hQ t (List.mem_cons_of_mem s ht)
      have hQs : Q s := hQ s (List.mem_cons_self s rest)
      unfold chunkLoop at hc
      by_cases hlen : chunkSize < (buf ++ s).length
      · rw [if_pos hlen] at hc
        rcases List.mem_append.mp hc with h1 | h2
        · by_cases hb : buf = []
          · rw [if_pos hb] at h1; simp at h1
          · rw [if_neg hb] at h1
            simp at h1
            subst h1
            exact hbuf
        · refine ih hQrest (s ++ [' ']) ?_ c h2
          exact Or.inr ⟨s, hQs, jsTrim_append_space s⟩
      · rw [if_neg hlen] at hc
        refine ih hQrest (buf ++ s ++ [' ']) ?_ c hc
        left
        rw [jsTrim_append_space]
        have := jsTrim_length_le (buf ++ s)
        omega

end RagBackend

namespace RagBackend

/-! ## C1: every chunk respects the bound, except a lone oversized sentence -/

/-- C1: for every input text and bound, every chunk produced by the chunker
either has length at most the bound, or is (the trim of) a single sentence of
the sentence split of the input — the lone-oversized-sentence edge case. -/
theorem chunkText_length_bound (text : List Char) (bound : Nat) :
    ∀ c ∈ chunkText text bound,
      c.length ≤ bound ∨ ∃ s, s ∈ splitSentences text ∧ c = jsTrim s := by
  intro c hc
  have h0 : (jsTrim ([] : List Char)).length ≤ bound ∨
      ∃ s, s ∈ splitSentences text ∧ jsTrim ([] : List Char) = jsTrim s := by
    left
    simp [jsTrim, List.dropWhile]
  exact chunkLoop_le bound (fun s => s ∈ splitSentences text)
    (splitSentences text) (fun s hs => hs) [] h0 c hc

/-- Witness for C1 at a concrete input: the text "aaaa. bb." with bound 6
produces the chunk "aaaa." (within the bound) among its chunks. -/
theorem chunkText_length_bound_witness :
    ['a', 'a', 'a', 'a', '.'] ∈ chunkText ['a', 'a', 'a', 'a', '.', ' ', 'b', 'b', '.'] 6 ∧
    (['a', 'a', 'a', 'a', '.'].length ≤ 6 ∨
      ∃ s, s ∈ splitSentences ['a', 'a', 'a', 'a', '.', ' ', 'b', 'b', '.'] ∧
        ['a', 'a', 'a', 'a', '.'] = jsTrim s) :=
  ⟨by decide,
    chunkText_length_bound ['a', 'a', 'a', 'a', '.', ' ', 'b', 'b', '.'] 6
      ['a', 'a', 'a', 'a', '.'] (by decide)⟩

end RagBackend

namespace RagBackend

/-! ## C3: the chunks partition the sentence sequence in order -/

theorem joinSp_nil : joinSp [] = [] := rfl

theorem joinSp_ne_nil (g : List (List Char)) (hg : g ≠ []) : joinSp g ≠ [] := by
  cases g with
  | nil => exact absurd rfl hg
  | cons s gs =>
      simp [joinSp]

theorem joinSp_singleton (s : List Char) : joinSp [s] = s ++ [' '] := by
  simp [joinSp]

theorem joinSp_append_single (p : List (List Char)) (s : List Char) :
    joinSp (p ++ [s]) = joinSp p ++ s ++ [' '] := by
  simp [joinSp]

theorem chunkLoop_groups (chunkSize : Nat) :
    ∀ (ss p : List (List Char)),
      ∃ G : List (List (List Char)),
        chunkLoop chunkSize ss (joinSp p) = G.map (fun g => jsTrim (joinSp g)) ∧
        G.flatten = p ++ ss ∧ ∀ g ∈ G, g ≠ [] := by
  intro ss
  induction ss with
  | nil =>
      intro p
      by_cases hp : p = []
      · subst hp
        exact ⟨[], by simp [chunkLoop, joinSp], by simp, by simp⟩
      · refine ⟨[p], ?_, by simp, by simp [hp]⟩
        unfold chunkLoop
        rw [if_neg (joinSp_ne_nil p hp)]
        rfl
  | cons s rest ih =>
      intro p
      unfold chunkLoop
      by_cases hlen : chunkSize < (joinSp p ++ s).length
      · rw [if_pos hlen]
        obtain ⟨G1, hmap, hflat, hne⟩ := ih [s]
        rw [joinSp_singleton] at hmap
        by_cases hp : p = []
        · subst hp
          rw [joinSp_nil, if_pos rfl, hmap]
          exact ⟨G1, by simp, by simpa using hflat, hne⟩
        · rw [if_neg (joinSp_ne_nil p hp), hmap]
          refine ⟨p :: G1, by simp, ?_, ?_⟩
          · simpa using hflat
          · intro g hg
            rcases List.mem_cons.mp hg with h | h
            · subst h; exact hp
            · exact hne g h
      · rw [if_neg hlen]
        obtain ⟨G1, hmap, hflat, hne⟩ := ih (p ++ [s])
        rw [joinSp_append_single] at hmap
        refine ⟨G1, hmap, ?_, hne⟩
        rw [hflat]
        simp

/-- C3: the chunker partitions the sentence sequence of the input: there is a
list of nonempty consecutive sentence groups whose concatenation is exactly
the sentence split of the input, and the chunks are, in order, precisely the
trimmed space-joined groups.  In particular every sentence lands in exactly
one chunk, in input order, with no overlap. -/
theorem chunkText_partitions_sentences (text : List Char) (bound : Nat) :
    ∃ G : List (List (List Char)),
      chunkText text bound = G.map (fun g => jsTrim (joinSp g)) ∧
      G.flatten = splitSentences text ∧ ∀ g ∈ G, g ≠ [] := by
  have h := chunkLoop_groups bound (splitSentences text) []
  simpa [chunkText, joinSp] using h

end RagBackend

namespace RagBackend

/-! ## C2: the chunker on empty input -/

/-- Counterexample to C2: the chunker applied to the empty string does not
return an empty sequence of chunks.  (JS `"".split(re)` yields `[""]`, the
loop turns the buffer into `" "`, and the final flush pushes `"".trim()`.) -/
theorem chunkText_empty_not_nil : chunkText [] 300 ≠ [] := by decide

/-- C2 (amended): the chunker applied to the empty string returns exactly one
chunk, namely the empty string, for every bound. -/
theorem chunkText_empty_singleton (bound : Nat) : chunkText [] bound = [[]] := by
  have h : splitSentences [] = [[]] := by decide
  unfold chunkText
  rw [h]
  unfold chunkLoop
  have hcond : ¬ bound < (([] : List Char) ++ []).length := by simp
  rw [if_neg hcond]
  unfold chunkLoop
  simp [jsTrim, List.dropWhile, jsWs, jsWsChars]

end RagBackend

namespace RagBackend

/-! ## C4: the retry policy -/

theorem retryLoop_ok {E A : Type} (op : Nat → Except E A) (n : Nat) (a : A)
    (h : op n = .ok a) : retryLoop op n = (.ok a, [], [n]) := by
  unfold retryLoop
  rw [h]

theorem retryLoop_err_retry {E A : Type} (op : Nat → Except E A) (n : Nat) (e : E)
    (h : op n = .error e) (hn : n + 1 < maxAttempts) :
    retryLoop op n =
      ((retryLoop op (n + 1)).1,
        backoffMs (n + 1) :: (retryLoop op (n + 1)).2.1,
        n :: (retryLoop op (n + 1)).2.2) := by
  conv_lhs => rw [retryLoop]
  rw [h]
  simp only [dif_neg (show ¬ n + 1 ≥ maxAttempts by omega)]

theorem retryLoop_err_last {E A : Type} (op : Nat → Except E A) (n : Nat) (e : E)
    (h : op n = .error e) (hn : n + 1 ≥ maxAttempts) :
    retryLoop op n = (.error e, [], [n]) := by
  conv_lhs => rw [retryLoop]
  rw [h]
  simp only [dif_pos hn]

/-- C4: under the retry loop of `embedAndStore`, an operation that fails on
the first two attempts and succeeds on the third returns the successful
result after exactly the two backoff delays 500ms and 1000ms (500ms times
the failure count), having made exactly attempts 0, 1, 2; an operation that
fails on all three attempts propagates the third attempt's error, with the
same two delays and no fourth attempt. -/
theorem retry_policy {E A : Type} (op : Nat → Except E A) :
    (∀ (e0 e1 : E) (a : A), op 0 = .error e0 → op 1 = .error e1 → op 2 = .ok a →
        retryLoop op 0 = (.ok a, [500, 1000], [0, 1, 2])) ∧
    (∀ e0 e1 e2 : E, op 0 = .error e0 → op 1 = .error e1 → op 2 = .error e2 →
        retryLoop op 0 = (.error e2, [500, 1000], [0, 1, 2])) := by
  constructor
  · intro e0 e1 a h0 h1 h2
    have s2 : retryLoop op 2 = (.ok a, [], [2]) := retryLoop_ok op 2 a h2
    have s1 := retryLoop_err_retry op 1 e1 h1 (by simp [maxAttempts])
    have s0 := retryLoop_err_retry op 0 e0 h0 (by simp [maxAttempts])
    rw [s1, s2] at s0
    rw [s0]
    norm_num [backoffMs]
  · intro e0 e1 e2 h0 h1 h2
    have s2 : retryLoop op 2 = (.error e2, [], [2]) :=
      retryLoop_err_last op 2 e2 h2 (by simp [maxAttempts])
    have s1 := retryLoop_err_retry op 1 e1 h1 (by simp [maxAttempts])
    have s0 := retryLoop_err_retry op 0 e0 h0 (by simp [maxAttempts])
    rw [s1, s2] at s0
    rw [s0]
    norm_num [backoffMs]

/-- Witness for C4 on concrete operations: one that succeeds on the third
try, one that always fails. -/
theorem retry_policy_witness :
    retryLoop retryOpThirdTry 0 = (.ok 42, [500, 1000], [0, 1, 2]) ∧
    retryLoop retryOpAllFail 0 = (.error 2, [500, 1000], [0, 1, 2]) :=
  ⟨(retry_policy retryOpThirdTry).1 0 1 42 rfl rfl rfl,
   (retry_policy retryOpAllFail).2 0 1 2 rfl rfl rfl⟩

end RagBackend

namespace RagBackend

/-! ## C9: batching arithmetic and order preservation -/

theorem toBatchesAux_flatten {α : Type} :
    ∀ (l cur : List α) (room : Nat),
      (toBatchesAux l cur room).flatten = cur.reverse ++ l := by
  intro l
  induction l with
  | nil => intro cur room; cases cur <;> simp [toBatchesAux]
  | cons x xs ih =>
      intro cur room
      cases room with
      | zero => simp [toBatchesAux, ih]
      | succ r => simp [toBatchesAux, ih]

theorem toBatchesAux_length {α : Type} :
    ∀ (l cur : List α) (room : Nat), cur.length + room = batchSize →
      (toBatchesAux l cur room).length = (cur.length + l.length + 7) / 8 := by
  intro l
  induction l with
  | nil =>
      intro cur room hinv
      cases cur with
      | nil => simp [toBatchesAux]
      | cons c cs =>
          simp only [toBatchesAux, List.length_singleton]
          simp only [batchSize] at hinv
          simp only [List.length_cons, List.length_nil] at *
          omega
  | cons x xs ih =>
      intro cur room hinv
      cases room with
      | zero =>
          have h1 := ih [x] (batchSize - 1) (by simp [batchSize])
          simp only [toBatchesAux, List.length_cons, List.length_singleton,
            List.length_nil] at *
          simp only [batchSize] at hinv
          omega
      | succ r =>
          have h1 := ih (x :: cur) r (by simp at hinv ⊢; omega)
          simp only [toBatchesAux, List.length_cons] at *
          omega

theorem embedBatchesGo_ok {α V : Type} (svc : List α → Option (List V)) (f : α → V) :
    ∀ bs : List (List α), (∀ b ∈ bs, svc b = some (b.map f)) →
      embedBatchesGo svc bs = .ok (bs.flatten.map f, bs.length) := by
  intro bs
  induction bs with
  | nil => intro _; simp [embedBatchesGo]
  | cons b rest ih =>
      intro h
      have hb := h b (List.mem_cons_self b rest)
      have hr := ih (fun t ht => h t (List.mem_cons_of_mem b ht))
      simp [embedBatchesGo, hb, hr]

/-- C9: when every embedding call answers with one vector per submitted text
(`svc b = some (b.map f)`), the ingestion loop over N chunks makes exactly
ceil(N/8) network calls and returns the vector of chunk i at position i,
for every N and every placement of batch boundaries. -/
theorem embed_batching_calls_and_order {α V : Type} (svc : List α → Option (List V))
    (f : α → V) (chunks : List α) (h : ∀ b, svc b = some (b.map f)) :
    embedBatchesRun svc chunks = .ok (chunks.map f, (chunks.length + 7) / 8) := by
  unfold embedBatchesRun
  rw [embedBatchesGo_ok svc f (toBatches chunks) (fun b _ => h b)]
  have h1 : (toBatches chunks).flatten = chunks := by
    unfold toBatches
    simpa using toBatchesAux_flatten chunks [] batchSize
  have h2 : (toBatches chunks).length = (chunks.length + 7) / 8 := by
    unfold toBatches
    simpa using toBatchesAux_length chunks [] batchSize (by simp)
  rw [h1, h2]

/-- Witness for C9: nine chunks make two network calls and the vectors stay
in chunk order across the batch boundary. -/
theorem embed_batching_witness :
    embedBatchesRun demoEmbedSvc [1, 2, 3, 4, 5, 6, 7, 8, 9] =
      .ok ([10, 20, 30, 40, 50, 60, 70, 80, 90], 2) := by
  have h := embed_batching_calls_and_order demoEmbedSvc (fun t => t * 10)
    [1, 2, 3, 4, 5, 6, 7, 8, 9] (fun b => rfl)
  simpa using h

end RagBackend

namespace RagBackend

/-! ## C6: embedding response validation -/

theorem embedBatchesGo_some {α V : Type} (svc : List α → Option (List V))
    (hsvc : ∀ b, ∃ items, svc b = some items) :
    ∀ bs : List (List α), ∃ vs n, embedBatchesGo svc bs = .ok (vs, n) := by
  intro bs
  induction bs with
  | nil => exact ⟨[], 0, rfl⟩
  | cons b rest ih =>
      obtain ⟨items, hb⟩ := hsvc b
      obtain ⟨vs, n, hr⟩ := ih
      exact ⟨items ++ vs, n + 1, by simp [embedBatchesGo, hb, hr]⟩

/-- Counterexample to C6: on the ingestion (batch) path, a response carrying
a single embedding for a batch of two texts is consumed without any error:
the run succeeds with the short vector list. -/
theorem embed_short_response_not_rejected :
    embedBatchesRun shortEmbedSvc [10, 20] = .ok ([99], 1) := by
  rfl

/-- C6 (amended): only the single-text query path (`getJinaEmbeddings`)
validates the response: a missing `data` array, an empty one, or a first
item without an array `embedding` fails with the missing-data error, and
otherwise the first embedding is returned.  The batch path
(`requestJinaEmbeddings` consumed by `embedAndStore`) does not validate at
all: whenever every response carries some `data` array — of any length —
the loop succeeds, silently using whatever vectors were returned. -/
theorem embedding_response_validation {V : Type} :
    (∀ (v : V) (rest : List (Option V)),
        getJinaEmbeddingsExtract (some (some v :: rest)) = .ok v) ∧
    (getJinaEmbeddingsExtract (V := V) none =
        .error "Embeddings response missing data") ∧
    (getJinaEmbeddingsExtract (V := V) (some []) =
        .error "Embeddings response missing data") ∧
    (∀ (rest : List (Option V)),
        getJinaEmbeddingsExtract (some (none :: rest)) =
          .error "Embeddings response missing data") ∧
    (∀ (α : Type) (svc : List α → Option (List V)) (chunks : List α),
        (∀ b, ∃ items, svc b = some items) →
        ∃ vs n, embedBatchesRun svc chunks = .ok (vs, n)) := by
  refine ⟨fun v rest => rfl, rfl, rfl, fun rest => rfl, ?_⟩
  intro α svc chunks hsvc
  exact embedBatchesGo_some svc hsvc (toBatches chunks)

/-- Witness for C6 (amended) at concrete inputs: the query path accepts a
well-formed response and rejects a missing array; the batch path accepts a
short response. -/
theorem embedding_response_validation_witness :
    getJinaEmbeddingsExtract (some [some 5]) = .ok 5 ∧
    getJinaEmbeddingsExtract (V := Nat) none =
      .error "Embeddings response missing data" ∧
    ∃ vs n, embedBatchesRun shortEmbedSvc [10, 20, 30] = .ok (vs, n) :=
  ⟨(embedding_response_validation).1 5 [],
   (embedding_response_validation).2.1,
   (embedding_response_validation).2.2.2.2 Nat shortEmbedSvc [10, 20, 30]
     (fun _ => ⟨[99], rfl⟩)⟩

end RagBackend

namespace RagBackend

/-! ## C8: invalid queries are rejected before anything runs -/

/-- C8: a chat request whose query is absent or empty gets the 400-class
`badRequest` answer (a constructor distinct from `serverError`), the store
is returned untouched (no append), and the call log is empty (no embedding,
search, generation or store operation is started) — for every behaviour of
the collaborators, i.e. independently of `env`. -/
theorem chat_invalid_request (env : ChatEnv) (store : String → List Message)
    (sessionId : Option String) :
    chatHandler env store none sessionId =
      ⟨.badRequest "Query is required", store, []⟩ ∧
    chatHandler env store (some "") sessionId =
      ⟨.badRequest "Query is required", store, []⟩ :=
  ⟨rfl, rfl⟩

end RagBackend

namespace RagBackend

/-! ## C5: a successful chat with no session id -/

/-- C5: for a chat request with nonempty query and no session id, when the
embedding, search, generation and both history appends succeed and the fresh
session is new to the store, the response carries the generated answer and
the freshly generated session id, and the history of that session afterwards
is exactly the user message followed by the bot message. -/
theorem chat_new_session (env : ChatEnv) (store : String → List Message)
    (q : String) (vec : List Int) (texts : List String) (answer : String)
    (hq : q ≠ "")
    (hfresh : store (historyKey env.freshId) = [])
    (hembed : env.embed q = .ok vec)
    (hsearch : env.search vec = .ok texts)
    (hgen : env.generate (mkPrompt (contextOf texts) q) = .ok answer)
    (hu : env.pushUserResult = .ok ())
    (hb : env.pushBotResult = .ok ()) :
    (chatHandler env store (some q) none).result = .ok answer env.freshId ∧
    (chatHandler env store (some q) none).store (historyKey env.freshId) =
      [⟨"user", q⟩, ⟨"bot", answer⟩] := by
  simp [chatHandler, hq, hembed, hsearch, hgen, hu, hb, resolveSessionId,
    rPush, hfresh]

/-- Witness for C5: the spec's end-to-end scenario 2 on concrete
collaborators. -/
theorem chat_new_session_witness :
    (chatHandler demoEnv emptyStore (some "What happened today?") none).result =
      .ok "the answer" "session-1" ∧
    (chatHandler demoEnv emptyStore (some "What happened today?") none).store
        (historyKey "session-1") =
      [⟨"user", "What happened today?"⟩, ⟨"bot", "the answer"⟩] :=
  chat_new_session demoEnv emptyStore "What happened today?" [1, 2, 3]
    ["ctx one", "ctx two"] "the answer" (by decide) rfl rfl rfl rfl rfl rfl

end RagBackend

namespace RagBackend

/-! ## C7: an answer is only returned after both appends succeeded -/

/-- C7: whenever the handler returns an `ok` answer, both history appends
succeeded and the session history was extended by exactly the user message
and the bot message, in that order; consequently, if any stage (including
persistence) fails, the caller never receives the computed answer. -/
theorem chat_answer_only_after_appends (env : ChatEnv)
    (store : String → List Message) (query sessionId : Option String)
    (a s : String)
    (h : (chatHandler env store query sessionId).result = .ok a s) :
    env.pushUserResult = .ok () ∧ env.pushBotResult = .ok () ∧
    ∃ q, query = some q ∧
      (chatHandler env store query sessionId).store (historyKey s) =
        store (historyKey s) ++ [⟨"user", q⟩, ⟨"bot", a⟩] := by
  cases query with
  | none => simp [chatHandler] at h
  | some q =>
      by_cases hq : q = ""
      · subst hq
        simp [chatHandler] at h
      · cases he : env.embed q with
        | error e => simp [chatHandler, hq, he] at h
        | ok vec =>
            cases hs : env.search vec with
            | error e => simp [chatHandler, hq, he, hs] at h
            | ok texts =>
                cases hg : env.generate (mkPrompt (contextOf texts) q) with
                | error e => simp [chatHandler, hq, he, hs, hg] at h
                | ok answer =>
                    cases hu : env.pushUserResult with
                    | error e => simp [chatHandler, hq, he, hs, hg, hu] at h
                    | ok u =>
                        cases hb : env.pushBotResult with
                        | error e =>
                            simp [chatHandler, hq, he, hs, hg, hu, hb] at h
                        | ok v =>
                            have hres : (chatHandler env store (some q) sessionId).result =
                                .ok answer (resolveSessionId env sessionId) := by
                              simp [chatHandler, hq, he, hs, hg, hu, hb]
                            rw [hres] at h
                            injection h with h1 h2
                            subst h1
                            subst h2
                            refine ⟨rfl, rfl, q, rfl, ?_⟩
                            simp [chatHandler, hq, he, hs, hg, hu, hb, rPush]

/-- Witness for C7: a concrete all-success run, with the conclusion taken
from the theorem at that run. -/
theorem chat_answer_only_after_appends_witness :
    demoEnv.pushUserResult = .ok () ∧ demoEnv.pushBotResult = .ok () ∧
    ∃ q, (some "hello" : Option String) = some q ∧
      (chatHandler demoEnv emptyStore (some "hello") none).store
          (historyKey "session-1") =
        emptyStore (historyKey "session-1") ++ [⟨"user", q⟩, ⟨"bot", "the answer"⟩] :=
  chat_answer_only_after_appends demoEnv emptyStore (some "hello") none
    "the answer" "session-1" (by decide)

end RagBackend

namespace RagBackend

/-! ## C10: a failed bot append leaves a lone user message behind -/

/-- C10 (implicit): the two history appends are not atomic — when the
user-message append succeeds and the bot-message append fails, the handler
answers with the generic error, yet the session history keeps the lone user
message (and no bot message is ever added for it). -/
theorem chat_bot_append_failure_keeps_user_message (env : ChatEnv)
    (store : String → List Message) (q : String) (vec : List Int)
    (texts : List String) (answer : String) (e : String)
    (sessionId : Option String)
    (hq : q ≠ "")
    (hembed : env.embed q = .ok vec)
    (hsearch : env.search vec = .ok texts)
    (hgen : env.generate (mkPrompt (contextOf texts) q) = .ok answer)
    (hu : env.pushUserResult = .ok ())
    (hb : env.pushBotResult = .error e) :
    (chatHandler env store (some q) sessionId).result = .serverError genericError ∧
    (chatHandler env store (some q) sessionId).store
        (historyKey (resolveSessionId env sessionId)) =
      store (historyKey (resolveSessionId env sessionId)) ++ [⟨"user", q⟩] := by
  simp [chatHandler, hq, hembed, hsearch, hgen, hu, hb, rPush]

/-- Witness for C10: with a collaborator whose bot-message push fails, a
fresh session ends up with exactly the odd, user-only transcript. -/
theorem chat_bot_append_failure_witness :
    (chatHandler demoEnvBotPushFails emptyStore (some "hello") none).result =
      .serverError genericError ∧
    (chatHandler demoEnvBotPushFails emptyStore (some "hello") none).store
        (historyKey (resolveSessionId demoEnvBotPushFails none)) =
      emptyStore (historyKey (resolveSessionId demoEnvBotPushFails none)) ++
        [⟨"user", "hello"⟩] :=
  chat_bot_append_failure_keeps_user_message demoEnvBotPushFails emptyStore
    "hello" [1, 2, 3] ["ctx one", "ctx two"] "the answer" "redis down" none
    (by decide) rfl rfl rfl rfl rfl

end RagBackend
